import Mathlib

/-!
Verification of the numba extension-type compiler core
(`numba/exttypes/compileclass.py`) and the macro-expansion pass
(`numba/macro.py`) against their natural-language specification.

The Python code is shallowly embedded: Python dicts become association
lists with insert-or-replace update semantics, in-place mutation becomes
functional record update, and raised exceptions become `Except` errors.
External collaborators (the type-inference engine, the native code
generator, the signature processor, the injected builder objects) are
taken as explicit function parameters, mirroring how `ExtensionCompiler`
receives them through its constructor.
-/

namespace Numba

/-! ### Python dict model

A Python `dict` is modelled as an association list whose `insert`
replaces the first binding of an existing key in place and appends new
keys at the end, exactly like CPython dict assignment preserves
insertion order.  `update d other` is Python's `d.update(other)`. -/

def dget {κ α : Type} [DecidableEq κ] : List (κ × α) → κ → Option α
  | [], _ => none
  | (k', v) :: rest, k => if k' = k then some v else dget rest k

def dinsert {κ α : Type} [DecidableEq κ] : List (κ × α) → κ → α → List (κ × α)
  | [], k, v => [(k, v)]
  | (k', v') :: rest, k, v =>
      if k' = k then (k, v) :: rest else (k', v') :: dinsert rest k v

def dupdate {κ α : Type} [DecidableEq κ] (d other : List (κ × α)) : List (κ × α) :=
  other.foldl (fun acc kv => dinsert acc kv.1 kv.2) d

def keysNodup {κ α : Type} (d : List (κ × α)) : Prop :=
  (d.map Prod.fst).Nodup

instance {κ α : Type} [DecidableEq κ] (d : List (κ × α)) : Decidable (keysNodup d) := by
  unfold keysNodup; infer_instance

theorem dget_dinsert {κ α : Type} [DecidableEq κ] (d : List (κ × α)) (k k' : κ) (v : α) :
    dget (dinsert d k v) k' = if k = k' then some v else dget d k' := by
  induction d with
  | nil => simp [dinsert, dget]
  | cons kv rest ih =>
    obtain ⟨k0, v0⟩ := kv
    by_cases h0 : k0 = k
    · subst h0
      by_cases h1 : k0 = k'
      · subst h1; simp [dinsert, dget]
      · simp [dinsert, dget, h1]
    · by_cases h1 : k0 = k'
      · subst h1
        have hne : ¬ k = k0 := fun h => h0 h.symm
        simp [dinsert, dget, h0, hne, ih]
      · simp [dinsert, dget, h0, h1, ih]

theorem dget_none_of_not_mem_keys {κ α : Type} [DecidableEq κ]
    (d : List (κ × α)) (k : κ) (h : k ∉ d.map Prod.fst) : dget d k = none := by
  induction d with
  | nil => rfl
  | cons kv rest ih =>
    obtain ⟨k0, v0⟩ := kv
    simp only [List.map_cons, List.mem_cons] at h
    push_neg at h
    have hne : ¬ k0 = k := fun hh => h.1 hh.symm
    simp [dget, hne, ih h.2]

theorem dget_dupdate {κ α : Type} [DecidableEq κ] (d other : List (κ × α)) (k : κ)
    (hnd : keysNodup other) :
    dget (dupdate d other) k =
      match dget other k with
      | some v => some v
      | none => dget d k := by
  induction other generalizing d with
  | nil => simp [dupdate, dget]
  | cons kv rest ih =>
    obtain ⟨k0, v0⟩ := kv
    have hcons := List.nodup_cons.mp (hnd : (k0 :: rest.map Prod.fst).Nodup)
    have hnd' : keysNodup rest := hcons.2
    have hk0 : k0 ∉ rest.map Prod.fst := hcons.1
    show dget (dupdate (dinsert d k0 v0) rest) k = _
    rw [ih (dinsert d k0 v0) hnd']
    by_cases hk : k0 = k
    · subst hk
      rw [dget_none_of_not_mem_keys rest k0 hk0]
      simp [dget, dget_dinsert]
    · simp [dget, hk, dget_dinsert]

theorem dget_dupdate_isSome {κ α : Type} [DecidableEq κ] (d other : List (κ × α)) (k : κ) :
    (dget (dupdate d other) k).isSome = true ↔
      (dget d k).isSome = true ∨ (dget other k).isSome = true := by
  induction other generalizing d with
  | nil =>
    simp [dupdate, dget]
  | cons kv rest ih =>
    obtain ⟨k0, v0⟩ := kv
    show (dget (dupdate (dinsert d k0 v0) rest) k).isSome = true ↔ _
    rw [ih (dinsert d k0 v0)]
    by_cases hk : k0 = k <;> simp [dget, hk, dget_dinsert]

/-! ### Data model of `numba/exttypes/compileclass.py`

Types, method signatures and function environments are opaque to the
orchestration logic under verification, so they are modelled as small
concrete structures carrying just the fields the source reads. -/

/-- A numba type expression (values of `minitypes.Type`); opaque here. -/
abbrev Ty := String

/-- A resolved method signature (`ExtMethodType`): return type and
argument types. -/
structure ExtMethodType where
  return_type : Ty
  args : List Ty
deriving DecidableEq, Repr

/-- A `Method` object: the origin function (opaque id) plus its
signature. -/
structure Method where
  name : String
  py_func : Nat
  signature : ExtMethodType
deriving DecidableEq, Repr

/-- A `FuncEnv`: opaque per-method artifact of the external
type-inference engine, carrying the fully resolved signature. -/
structure FuncEnv where
  func_signature : ExtMethodType
  envId : Nat
deriving DecidableEq, Repr

/-- Modelled from the spec: `ExtensionAttributesTableType`
(`numba.typesystem.exttypes.attributestype`, not under src) is a fresh
table parameterized by the ordered list of direct parent attribute
tables, holding a mapping `attributedict` from attribute name to type.
Parent tables are recorded by their attribute dictionaries (the spec
says they are read-only and used only during the merge); a parent whose
table was never installed is `none`. -/
structure AttributeTable where
  parents : List (Option (List (String × Ty)))
  attributedict : List (String × Ty)
deriving DecidableEq, Repr

/-- Modelled from the spec: `VTabType`
(`numba.typesystem.exttypes.vtabtype`, not under src) is a fresh table
parameterized by the ordered list of direct parent vtab types, holding a
mapping `methoddict` from method name to signature. -/
structure VTabType where
  parents : List (Option (List (String × ExtMethodType)))
  methoddict : List (String × ExtMethodType)
deriving DecidableEq, Repr

/-- The finalized extension type exposed by an already-compiled base
class: only its two tables are read during inheritance. -/
structure SuperTables where
  attribute_table : Option AttributeTable
  vtab_type : Option VTabType
deriving DecidableEq, Repr

/-- An already-compiled numba base class.  The source reads the base's
finalized extension type both as `base.exttype` and as `base.ext_type`;
both spellings are modelled as the same underlying object. -/
structure NumbaClass where
  exttype : SuperTables
deriving DecidableEq, Repr

/-- The second spelling used by the source for the same attribute. -/
def NumbaClass.ext_type (b : NumbaClass) : SuperTables := b.exttype

/-- The `ExtType` under construction.  Modelled from the spec: created
empty at the start of `infer()` (tables not yet installed are `none`)
and mutated monotonically.  `bases` models what
`utils.get_numba_bases(ext_type.py_class)` (not under src) returns: the
ordered direct numba bases, each exposing a previously finalized
extension type. -/
structure ExtType where
  bases : List NumbaClass
  attribute_table : Option AttributeTable
  vtab_type : Option VTabType
  methods : List (String × ExtMethodType)
  symtab : List (String × Ty)
deriving DecidableEq, Repr

/-- `ext_type.add_method(name, signature)`: records the method signature
in the ext_type's method mapping. -/
def ExtType.add_method (et : ExtType) (name : String) (sig : ExtMethodType) : ExtType :=
  { et with methods := dinsert et.methods name sig }

/-- Python-level errors raised by the embedded code. -/
inductive PyErr where
  | typeError
  | attributeError
  | keyError (name : String)
  | assertionError
  | macroFailure (msg : String)
deriving DecidableEq, Repr

/-! ### AttributesInheriter (`compileclass.py` lines 177-229) -/

/-- Embeds `AttributesInheriter.inherit_attributes(derived_ext_type,
base_ext_type)`: runs
`derived_ext_type.attribute_table.attributedict.update(base_ext_type.attribute_table.attributedict)`.
Accessing `.attributedict` on an absent (`None`) table raises
`AttributeError`. -/
def inherit_attributes (derived_ext_type base_ext_type : ExtType) :
    Except PyErr ExtType :=
  match derived_ext_type.attribute_table, base_ext_type.attribute_table with
  | some dt, some bt =>
      .ok { derived_ext_type with
              attribute_table :=
                some { dt with attributedict := dupdate dt.attributedict bt.attributedict } }
  | _, _ => .error .attributeError

/-- Embeds `AttributesInheriter.inherit_methods(derived_ext_type,
base_ext_type)`: runs
`derived_ext_type.vtab_type.methoddict.update(base_ext_type.vtab_type.methoddict)`. -/
def inherit_methods (derived_ext_type base_ext_type : ExtType) :
    Except PyErr ExtType :=
  match derived_ext_type.vtab_type, base_ext_type.vtab_type with
  | some dv, some bv =>
      .ok { derived_ext_type with
              vtab_type :=
                some { dv with methoddict := dupdate dv.methoddict bv.methoddict } }
  | _, _ => .error .attributeError

/-- Embeds `AttributesInheriter.build_attribute_table(ext_type)`.  The
source builds `attr_table = ExtensionAttributesTableType(parent_attrtables)`
and then runs `self.inherit_attributes(attr_table, base.ext_type)` for
each base — passing the new *table* in the parameter slot that
`inherit_attributes` reads as `derived_ext_type.attribute_table`; an
`ExtensionAttributesTableType` has no `attribute_table` field, so the
first loop iteration raises `AttributeError`.  The function body has no
`return` statement, so when the loop completes (no bases) it returns
`None`. -/
def build_attribute_table (ext_type : ExtType) : Except PyErr (Option AttributeTable) :=
  let bases := ext_type.bases
  let parent_attrtables :=
    bases.map (fun base => base.exttype.attribute_table.map AttributeTable.attributedict)
  let _attr_table : AttributeTable := { parents := parent_attrtables, attributedict := [] }
  match bases with
  | [] => .ok none
  | _ :: _ => .error .attributeError

/-- Embeds `AttributesInheriter.build_method_table(ext_type)`: same
shape as `build_attribute_table`, over `VTabType(parent_vtables)` and
`inherit_methods`; it also has no `return` statement. -/
def build_method_table (ext_type : ExtType) : Except PyErr (Option VTabType) :=
  let bases := ext_type.bases
  let parent_vtables :=
    bases.map (fun base => base.exttype.vtab_type.map VTabType.methoddict)
  let _vtable : VTabType := { parents := parent_vtables, methoddict := [] }
  match bases with
  | [] => .ok none
  | _ :: _ => .error .attributeError

/-- Embeds `AttributesInheriter.inherit(ext_type)`:
`ext_type.attribute_table = self.build_attribute_table(ext_type)` then
`ext_type.vtab_type = self.build_method_table(ext_type)`. -/
def inherit (ext_type : ExtType) : Except PyErr ExtType := do
  let attr_table ← build_attribute_table ext_type
  let et := { ext_type with attribute_table := attr_table }
  let vtable ← build_method_table et
  .ok { et with vtab_type := vtable }

/-- Modelled from the spec: the class's own attribute declarations are
merged into the inherited table last and "win over all inherited ones"
(§4.2 tie-break policy); the merging stage
(`AttributeBuilder.build_attributes`) is declared but not implemented
under src. -/
def merge_own_attributes (tbl own : List (String × Ty)) : List (String × Ty) :=
  dupdate tbl own

/-- Modelled from the spec: the class's own method declarations are
merged into the inherited vtab last and win over inherited entries of
the same name (§4.2); the merging stage (`VTabBuilder.build_vtab_type`)
is declared but not implemented under src. -/
def merge_own_methods (tbl own : List (String × ExtMethodType)) :
    List (String × ExtMethodType) :=
  dupdate tbl own

/-! ### ExtensionCompiler (`compileclass.py` lines 17-170)

The compiler receives its collaborators (method maker, inheriter,
attribute builder, vtab builder) through its constructor and calls the
external type-inference engine (`pipeline.compile2`), the signature
processor (`signatures.MethodSignatureProcessor`) and the native type
factory (`extension_types.create_new_extension_type`); none of those
are implemented under src, so they are explicit function parameters,
bundled in `CompilerDeps`.  Every call into an external collaborator is
recorded as an `Event` so that stage ordering is observable. -/

/-- A member of the working class dict. -/
inductive ClassMember where
  | methodMember (m : Method)
  | typeDecl (t : Ty)
  | pyObj (objId : Nat)
deriving DecidableEq, Repr

/-- One entry in the observable trace of a compilation: a stage boundary
or a call into an external collaborator. -/
inductive Event where
  | inheritAttrs
  | processClassAttrTypes
  | processSignatures
  | inferMethod (name : String)
  | buildAttributes
  | buildVTabType
  | nativeCompileMethod (name : String)
  | buildVtab
  | createExtensionType
deriving DecidableEq, Repr

/-- The mutable state of one `ExtensionCompiler` instance. -/
structure CompilerState where
  py_class_name : String
  class_dict : List (String × ClassMember)
  ext_type : ExtType
  /-- `self.func_envs`: one FuncEnv per method, keyed by Method. -/
  func_envs : List (Method × FuncEnv)
  /-- `self.methods`, set by `process_method_signatures`, reset to
  `None` at the end of `infer()`. -/
  methods : Option (List Method)
  /-- `self.method_types`, same lifecycle as `methods`. -/
  method_types : Option (List ExtMethodType)
deriving DecidableEq, Repr

/-- The external collaborators of `ExtensionCompiler`, injected through
its constructor or imported from modules not under src. -/
structure CompilerDeps where
  /-- `self.inheriter.inherit(ext_type, class_dict)` as invoked by
  `infer_attributes` (the injected inheriter is constructed outside
  src). -/
  inheriterInherit : ExtType → List (String × ClassMember) → ExtType
  /-- `self.inheriter.process_class_attribute_types(ext_type, class_dict)`. -/
  inheriterProcessTypes : ExtType → List (String × ClassMember) → ExtType
  /-- `signatures.MethodSignatureProcessor(...).get_method_signatures()`:
  yields the Method objects and their resolved `ExtMethodType`s. -/
  get_method_signatures : List (String × ClassMember) → List Method × List ExtMethodType
  /-- `pipeline.compile2(env, py_func, restype, argtypes, 'type_infer', flags)`:
  the external type-inference engine, returning a `FuncEnv`. -/
  compile2 : Method → FuncEnv
  /-- `self.attrbuilder.build_attributes(ext_type)`. -/
  build_attributes : ExtType → ExtType
  /-- `self.vtabbuilder.build_vtab_type(ext_type)`. -/
  build_vtab_type : ExtType → ExtType
  /-- Modelled from the spec: the native code generator consumes one
  FuncEnv and returns `(method_pointer, llvm_func)` (opaque handles). -/
  nativeCompile : FuncEnv → Nat × Nat
  /-- `self.vtabbuilder.build_vtab(ext_type, method_pointers)`: returns
  the populated dispatch table (opaque handle). -/
  build_vtab : ExtType → List Nat → Nat

/-- Embeds `ExtensionCompiler.infer_attributes`: calls the injected
inheriter's `inherit` and `process_class_attribute_types` on the
ext_type and working class dict. -/
def infer_attributes (deps : CompilerDeps) (st : CompilerState) :
    CompilerState × List Event :=
  let et1 := deps.inheriterInherit st.ext_type st.class_dict
  let et2 := deps.inheriterProcessTypes et1 st.class_dict
  ({ st with ext_type := et2 }, [.inheritAttrs, .processClassAttrTypes])

/-- Embeds the loop of `ExtensionCompiler.process_method_signatures`
(lines 80-82): for each `(method, method_type)` pair,
`ext_type.add_method(method.name, method_type)` and
`class_dict[method.name] = method`. -/
def register_methods (st : CompilerState) :
    List (Method × ExtMethodType) → CompilerState
  | [] => st
  | (method, method_type) :: rest =>
      register_methods
        { st with
            ext_type := st.ext_type.add_method method.name method_type,
            class_dict := dinsert st.class_dict method.name (.methodMember method) }
        rest

/-- Embeds `ExtensionCompiler.process_method_signatures`: obtains
`(methods, method_types)` from the signature processor, then registers
each method in the ext_type and the class dict. -/
def process_method_signatures (deps : CompilerDeps) (st : CompilerState) :
    CompilerState × List Event :=
  let pair := deps.get_method_signatures st.class_dict
  let st1 := register_methods st (pair.1.zip pair.2)
  ({ st1 with methods := some pair.1, method_types := some pair.2 },
   [.processSignatures])

/-- Embeds `ExtensionCompiler.type_infer_method(method)`: runs the
type-inference engine on the method, stores the FuncEnv in
`self.func_envs[method]`, and records the resolved signature via
`ext_type.add_method`. -/
def type_infer_method (deps : CompilerDeps) (st : CompilerState) (method : Method) :
    CompilerState × List Event :=
  let func_env := deps.compile2 method
  let st1 := { st with func_envs := dinsert st.func_envs method func_env }
  let st2 := { st1 with ext_type := st1.ext_type.add_method method.name func_env.func_signature }
  (st2, [.inferMethod method.name])

/-- Embeds `ExtensionCompiler.type_infer_init_method` (lines 96-101):
if `'__init__'` is absent from the class dict the method returns with
the state untouched; if it is present, the source executes
`self.type_infer_method(initfunc, '__init__')`, passing two positional
arguments to the one-parameter method `type_infer_method`, which Python
rejects with `TypeError` before the inference engine is ever invoked. -/
def type_infer_init_method (st : CompilerState) :
    Except PyErr CompilerState × List Event :=
  match dget st.class_dict "__init__" with
  | none => (.ok st, [])
  | some _ => (.error .typeError, [])

/-- The loop of `ExtensionCompiler.type_infer_methods`: for each method,
skip it when its name is `'__new__'` or `'__init__'`, otherwise run
`type_infer_method`. -/
def type_infer_methods_loop (deps : CompilerDeps) (st : CompilerState) :
    List Method → CompilerState × List Event
  | [] => (st, [])
  | method :: rest =>
      if method.name = "__new__" ∨ method.name = "__init__" then
        type_infer_methods_loop deps st rest
      else
        let (st1, t1) := type_infer_method deps st method
        let (st2, t2) := type_infer_methods_loop deps st1 rest
        (st2, t1 ++ t2)

/-- Embeds `ExtensionCompiler.type_infer_methods` (lines 103-108):
iterates `self.methods`; iterating `None` (before
`process_method_signatures` has run) raises `TypeError`. -/
def type_infer_methods (deps : CompilerDeps) (st : CompilerState) :
    Except PyErr CompilerState × List Event :=
  match st.methods with
  | none => (.error .typeError, [])
  | some ms =>
      let (st1, t) := type_infer_methods_loop deps st ms
      (.ok st1, t)

/-- Stages (d)-(g) of `ExtensionCompiler.infer` (lines 48-57):
`type_infer_init_method`, `attrbuilder.build_attributes`,
`type_infer_methods`, `vtabbuilder.build_vtab_type`, then
`self.methods = None` and `self.method_types = None`.  A raised
exception aborts the remaining stages. -/
def infer_from_init (deps : CompilerDeps) (st2 : CompilerState) :
    Except PyErr CompilerState × List Event :=
  match type_infer_init_method st2 with
  | (.error e, t3) => (.error e, t3)
  | (.ok st3, t3) =>
      let st4 := { st3 with ext_type := deps.build_attributes st3.ext_type }
      let t4 := [Event.buildAttributes]
      match type_infer_methods deps st4 with
      | (.error e, t5) => (.error e, t3 ++ t4 ++ t5)
      | (.ok st5, t5) =>
          let st6 := { st5 with ext_type := deps.build_vtab_type st5.ext_type }
          let st7 := { st6 with methods := none, method_types := none }
          (.ok st7, t3 ++ t4 ++ t5 ++ [Event.buildVTabType])

/-- Embeds `ExtensionCompiler.infer` (lines 45-57): stages (a)-(b)
(`infer_attributes`), (c) (`process_method_signatures`), then stages
(d)-(g) (`infer_from_init`), in source order. -/
def infer (deps : CompilerDeps) (st : CompilerState) :
    Except PyErr CompilerState × List Event :=
  let (st1, t1) := infer_attributes deps st
  let (st2, t2) := process_method_signatures deps st1
  let (r, t3) := infer_from_init deps st2
  (r, t1 ++ t2 ++ t3)

/-- An extension-type validator: `validate(ext_type)` passes or raises a
descriptive failure. -/
abbrev Validator := ExtType → Except String Unit

/-- Embeds `ExtensionCompiler.validate` (lines 114-119): a plain `for`
loop over `self.exttype_validators` invoking `validator.validate(ext_type)`;
a raised failure propagates immediately. -/
def validate (validators : List Validator) (ext_type : ExtType) : Except String Unit :=
  match validators with
  | [] => .ok ()
  | v :: rest =>
      match v ext_type with
      | .error e => .error e
      | .ok () => validate rest ext_type

/-- Modelled from the spec: `extension_types.create_new_extension_type`
(not under src) is the external native type factory; the finished type
is modelled as a record of exactly the arguments
`build_extension_type` passes to the factory. -/
structure FinishedType where
  name : String
  class_dict : List (String × ClassMember)
  ext_type : ExtType
  vtab : Nat
  vtab_type : Option VTabType
  lmethods : List Nat
  method_pointers : List Nat
deriving DecidableEq, Repr

/-- Embeds `ExtensionCompiler.build_extension_type` (lines 160-170):
invokes the native type factory with the class name, class dict,
ext_type, populated vtab, vtab type, llvm methods and method
pointers. -/
def build_extension_type (st : CompilerState) (lmethods method_pointers : List Nat)
    (vtab : Nat) : FinishedType × List Event :=
  ({ name := st.py_class_name
     class_dict := st.class_dict
     ext_type := st.ext_type
     vtab := vtab
     vtab_type := st.ext_type.vtab_type
     lmethods := lmethods
     method_pointers := method_pointers },
   [.createExtensionType])

/-- Modelled from the spec: `ExtensionCompiler.compile_methods` is
declared under src with only its docstring ("Compile all methods, reuse
function environments from type inference stage.  :return:
([method_pointers], [llvm_funcs])").  It is modelled as running the
native code generator once on each stored FuncEnv, in insertion order,
never invoking the type-inference engine. -/
def compile_methods (deps : CompilerDeps) (st : CompilerState) :
    (List Nat × List Nat) × List Event :=
  let compiled := st.func_envs.map (fun me => (me.1.name, deps.nativeCompile me.2))
  ((compiled.map (fun c => c.2.1), compiled.map (fun c => c.2.2)),
   compiled.map (fun c => Event.nativeCompileMethod c.1))

/-- Embeds `ExtensionCompiler.compile` (lines 136-150): stores the
origin class in the class dict, compiles the methods, builds the
populated vtab from the method pointers, and hands everything to the
native type factory. -/
def compile (deps : CompilerDeps) (st : CompilerState) : FinishedType × List Event :=
  let st1 := { st with
                 class_dict := dinsert st.class_dict "__numba_py_class" (.pyObj 0) }
  let ((method_pointers, lmethods), t1) := compile_methods deps st1
  let vtab := deps.build_vtab st1.ext_type method_pointers
  let (ft, t2) := build_extension_type st1 lmethods method_pointers vtab
  (ft, t1 ++ [Event.buildVtab] ++ t2)

/-! ### The macro expansion pass (`numba/macro.py`)

The IR (`numba.ir`, not under src) is modelled with the constructors and
fields that `macro.py` reads: assignments whose right-hand side is a
`Global`, `Const`, `FreeVar`, `Var`, or an `Expr` with op `call` or
`getattr`.  Python run-time values living in the constant pool are
`PyVal`s; a macro's expansion function is referenced by an id whose
behaviour is supplied as an explicit parameter `funcSem` (calling it
either returns a value or raises, with message `str(e)`). -/

/-- A `Macro` object (`macro.py` lines 118-142): name, expansion
function (by id), callable flag. -/
structure MacroObj where
  name : String
  funcId : Nat
  callable : Bool
deriving DecidableEq, Repr

/-- A Python run-time value as stored in the macro pass's constant
pool. -/
inductive PyVal where
  | macroVal (m : MacroObj)
  | obj (clsId : Nat) (attrs : List (String × PyVal))
  | intVal (n : Int)
  | strVal (s : String)
  | boolVal (b : Bool)
  | noneVal

/-- Python truthiness of a `PyVal` (`if result:`). -/
def truthy : PyVal → Bool
  | .macroVal _ => true
  | .obj _ _ => true
  | .intVal n => n ≠ 0
  | .strVal s => s ≠ ""
  | .boolVal b => b
  | .noneVal => false

/-- `getattr(base, attr)`: attribute lookup on a pool value; only
generic objects carry attributes here, anything else raises
`AttributeError`. -/
def pyGetattr (v : PyVal) (attr : String) : Except PyErr PyVal :=
  match v with
  | .obj _ attrs =>
      match dget attrs attr with
      | some r => .ok r
      | none => .error .attributeError
  | _ => .error .attributeError

/-- The behaviour of macro expansion functions: argument values and
keyword values in, either a result or a raised exception (its
`str`). -/
abbrev FuncSem := Nat → List PyVal → List (String × PyVal) → Except String PyVal

/-- A reference to an `ir.Var` as it occurs inside an expression. -/
structure VarRef where
  name : String
deriving DecidableEq, Repr

/-- A source location; modelled by its string rendering, which is what
the error message interpolates. -/
abbrev Loc := String

/-- The callee slot of an `ir.Expr.call`: originally an `ir.Var`; after
macro expansion it can hold the expansion result (with its `loc` set to
the call's location) or an `ir.Intrinsic` wrapping a macro's
function. -/
inductive Callee where
  | var (v : VarRef)
  | value (v : PyVal) (loc : Loc)
  | intrinsic (iname : String) (funcId : Nat)

/-- An `ir.Expr` of the ops the pass inspects. -/
inductive ExprIR where
  | call (func : Callee) (args : List VarRef) (kws : List (String × VarRef)) (loc : Loc)
  | getattr (value : VarRef) (attr : String) (loc : Loc)
  | otherExpr (op : String) (loc : Loc)

/-- The right-hand side of an `ir.Assign`. -/
inductive RHS where
  | globalVal (gname : String) (value : PyVal)
  | constVal (value : PyVal)
  | freeVar (index : Nat) (value : PyVal)
  | varRHS (v : VarRef)
  | expr (e : ExprIR)

/-- A block instruction: an `ir.Assign` with a source location, or any
other instruction (which both passes ignore). -/
inductive Stmt where
  | assign (target : VarRef) (value : RHS) (loc : Loc)
  | other

/-- The constant pool: a Python dict from variable name to value. -/
abbrev ConstPool := List (String × PyVal)

/-- `[constants[arg.name] for arg in args]`: resolving an absent name
raises `KeyError`. -/
def resolveVars (constants : ConstPool) : List VarRef → Except PyErr (List PyVal)
  | [] => .ok []
  | a :: rest =>
      match dget constants a.name with
      | none => .error (.keyError a.name)
      | some v =>
          match resolveVars constants rest with
          | .error e => .error e
          | .ok vs => .ok (v :: vs)

/-- `dict((k, constants[v.name]) for k, v in kws)`. -/
def resolveKws (constants : ConstPool) :
    List (String × VarRef) → Except PyErr (List (String × PyVal))
  | [] => .ok []
  | (k, a) :: rest =>
      match dget constants a.name with
      | none => .error (.keyError a.name)
      | some v =>
          match resolveKws constants rest with
          | .error e => .error e
          | .ok vs => .ok ((k, v) :: vs)

/-- The name used to look the callee up in the constant pool
(`callee.name`).  Calls whose callee slot was already rewritten to an
expansion result are not looked up again. -/
def calleeName : Callee → Option String
  | .var v => some v.name
  | .intrinsic iname _ => some iname
  | .value _ _ => none

/-- Embeds the per-instruction body of `expand_macros_in_block`
(`macro.py` lines 79-115).  For a call whose callee resolves to a
`Macro`: `assert macro.callable`; resolve argument and keyword values
from the pool; run the expansion function; a raised exception becomes
`MacroError("Macro expansion failed at {loc}:\n{msg}")`; a truthy
result replaces the instruction's value with a call to the result (its
`loc` set to the call's), a falsy result leaves the instruction
unchanged.  For a getattr whose base is bound in the pool: look the
attribute up (`AttributeError` propagates); a non-callable `Macro`
value rewrites the instruction into a zero-argument call of an
`ir.Intrinsic` wrapping the macro's function; anything else leaves the
instruction unchanged. -/
def expandMacroInst (funcSem : FuncSem) (constants : ConstPool) (inst : Stmt) :
    Except PyErr Stmt :=
  match inst with
  | .assign target (.expr (.call func args kws loc)) rloc =>
      (match calleeName func with
       | none => .ok inst
       | some cname =>
         match dget constants cname with
         | some (.macroVal m) =>
             if m.callable then
               match resolveVars constants args with
               | .error e => .error e
               | .ok argvals =>
                 match resolveKws constants kws with
                 | .error e => .error e
                 | .ok kwvals =>
                   match funcSem m.funcId argvals kwvals with
                   | .error msg =>
                       .error (.macroFailure
                         ("Macro expansion failed at " ++ loc ++ ":\n" ++ msg))
                   | .ok result =>
                       if truthy result then
                         .ok (.assign target
                               (.expr (.call (.value result loc) args kws loc)) rloc)
                       else .ok inst
             else .error .assertionError
         | _ => .ok inst)
  | .assign target (.expr (.getattr base attr loc)) rloc =>
      (match dget constants base.name with
       | none => .ok inst
       | some baseval =>
         match pyGetattr baseval attr with
         | .error e => .error e
         | .ok value =>
           match value with
           | .macroVal m =>
               if m.callable then .ok inst
               else
                 .ok (.assign target
                       (.expr (.call (.intrinsic m.name m.funcId) [] [] loc)) rloc)
           | _ => .ok inst)
  | _ => .ok inst

/-- Embeds `expand_macros_in_block(constants, block)`: the pass walks
the block's instructions in order, rewriting each in place; a raised
exception propagates (the pool is never written by this pass). -/
def expand_macros_in_block (funcSem : FuncSem) (constants : ConstPool) :
    List Stmt → Except PyErr (List Stmt)
  | [] => .ok []
  | inst :: rest =>
      match expandMacroInst funcSem constants inst with
      | .error e => .error e
      | .ok inst1 =>
          match expand_macros_in_block funcSem constants rest with
          | .error e => .error e
          | .ok rest1 => .ok (inst1 :: rest1)

/-- Embeds the per-instruction body of `module_getattr_folding`
(`macro.py` lines 45-64): an assignment binds its target in the pool
when its right-hand side is a `Global`, a getattr whose base name is
bound in the pool (looking the attribute up on the bound value;
`AttributeError` propagates), a `Const`, a `Var` bound in the pool, or
a `FreeVar`; every other instruction leaves the pool unchanged. -/
def foldConstInst (constants : ConstPool) (inst : Stmt) : Except PyErr ConstPool :=
  match inst with
  | .assign target rhs _ =>
      (match rhs with
       | .globalVal _ v => .ok (dinsert constants target.name v)
       | .expr (.getattr base attr _) =>
           (match dget constants base.name with
            | some baseval =>
                match pyGetattr baseval attr with
                | .error e => .error e
                | .ok v => .ok (dinsert constants target.name v)
            | none => .ok constants)
       | .constVal v => .ok (dinsert constants target.name v)
       | .varRHS v =>
           (match dget constants v.name with
            | some value => .ok (dinsert constants target.name value)
            | none => .ok constants)
       | .freeVar _ v => .ok (dinsert constants target.name v)
       | .expr _ => .ok constants)
  | .other => .ok constants

/-- Embeds `module_getattr_folding(constants, block)`: folds the
instructions in order, mutating the pool in place; when an instruction
raises, the pool keeps the bindings added so far and the error is
reported. -/
def module_getattr_folding (constants : ConstPool) :
    List Stmt → ConstPool × Option PyErr
  | [] => (constants, none)
  | inst :: rest =>
      match foldConstInst constants inst with
      | .error e => (constants, some e)
      | .ok c1 => module_getattr_folding c1 rest

/-! ### Statement-side predicates -/

/-- The right-hand-side shapes that `module_getattr_folding` binds in
the constant pool, relative to a pool state: a `Global`, a `Const`, a
`FreeVar`, a `Var` bound in the pool, or a getattr whose base name is
bound in the pool. -/
def bindingRHS (pool : ConstPool) : RHS → Prop
  | .globalVal _ _ => True
  | .constVal _ => True
  | .freeVar _ _ => True
  | .varRHS v => (dget pool v.name).isSome = true
  | .expr (.getattr base _ _) => (dget pool base.name).isSome = true
  | .expr _ => False

/-! ### Concrete fixtures used by closed theorems and witnesses -/

/-- An empty ext_type, as created at the start of `infer()`. -/
def extEmpty : ExtType :=
  { bases := [], attribute_table := none, vtab_type := none, methods := [], symtab := [] }

/-- A sample attribute table holding one attribute. -/
def sampleAttrTable : AttributeTable :=
  { parents := [], attributedict := [("x", "float64")] }

/-- A sample vtab type holding one method. -/
def sampleVTabType : VTabType :=
  { parents := [], methoddict := [("norm", { return_type := "float64", args := [] })] }

/-- An ext_type with no numba bases whose tables are already installed. -/
def extWithTables : ExtType :=
  { extEmpty with attribute_table := some sampleAttrTable, vtab_type := some sampleVTabType }

/-- Base `A` of the two-base override fixture: declares attribute `x`
as int32 and method `m` returning int32. -/
def extBaseA : ExtType :=
  { extEmpty with
      attribute_table := some { parents := [], attributedict := [("x", "int32")] },
      vtab_type := some { parents := [], methoddict := [("m", { return_type := "int32", args := [] })] } }

/-- Base `B` of the two-base override fixture: declares attribute `x`
as float64 and method `m` returning float64. -/
def extBaseB : ExtType :=
  { extEmpty with
      attribute_table := some { parents := [], attributedict := [("x", "float64")] },
      vtab_type := some { parents := [], methoddict := [("m", { return_type := "float64", args := [] })] } }

/-- A derived ext_type whose fresh tables are still empty. -/
def extDerived : ExtType :=
  { extEmpty with
      attribute_table := some { parents := [], attributedict := [] },
      vtab_type := some { parents := [], methoddict := [] } }

/-- A validator that always rejects with an attribute-collision
diagnostic. -/
def collisionValidator : Validator := fun _ => .error "attribute x collides with method x"

/-- A validator that always rejects with an abstract-method
diagnostic. -/
def abstractValidator : Validator := fun _ => .error "abstract method m has no override"

/-- Sample `__init__` method object. -/
def initMethod : Method :=
  { name := "__init__", py_func := 1, signature := { return_type := "void", args := ["float64"] } }

/-- Sample `__new__` method object. -/
def newMethod : Method :=
  { name := "__new__", py_func := 3, signature := { return_type := "object_", args := [] } }

/-- Sample ordinary method object. -/
def normMethod : Method :=
  { name := "norm", py_func := 2, signature := { return_type := "float64", args := [] } }

/-- A concrete signature processor: collects the Method members of the
class dict in order, with their declared signatures. -/
def extractMethods (cd : List (String × ClassMember)) :
    List Method × List ExtMethodType :=
  let ms := cd.filterMap (fun kv =>
    match kv.2 with
    | .methodMember m => some m
    | _ => none)
  (ms, ms.map Method.signature)

/-- Concrete collaborators: identity builders, a deterministic inference
engine and a deterministic native code generator. -/
def idDeps : CompilerDeps :=
  { inheriterInherit := fun et _ => et
    inheriterProcessTypes := fun et _ => et
    get_method_signatures := extractMethods
    compile2 := fun m => { func_signature := m.signature, envId := m.py_func }
    build_attributes := fun et => et
    build_vtab_type := fun et => et
    nativeCompile := fun fe => (fe.envId + 100, fe.envId + 200)
    build_vtab := fun _ ptrs => ptrs.length }

/-- A compiler state whose class dict declares `__init__`. -/
def stWithInit : CompilerState :=
  { py_class_name := "Point"
    class_dict := [("__init__", .methodMember initMethod), ("norm", .methodMember normMethod)]
    ext_type := extEmpty
    func_envs := []
    methods := none
    method_types := none }

/-- A compiler state whose class dict declares only `norm`. -/
def stNoInit : CompilerState :=
  { stWithInit with class_dict := [("norm", .methodMember normMethod)] }

/-- A state in which `process_method_signatures` has run, recording
`__init__`, `__new__` and `norm`. -/
def stThreeMethods : CompilerState :=
  { stWithInit with methods := some [initMethod, newMethod, normMethod] }

/-- The compiler state produced by running `infer` with the concrete
collaborators on `stNoInit`. -/
def inferredNoInit : CompilerState :=
  { py_class_name := "Point"
    class_dict := [("norm", .methodMember normMethod)]
    ext_type := { extEmpty with methods := [("norm", normMethod.signature)] }
    func_envs := [(normMethod, { func_signature := normMethod.signature, envId := 2 })]
    methods := none
    method_types := none }

/-- Macro-function semantics for concrete runs: function 7 returns a
fresh object, function 8 raises "division by zero", function 9 returns
`None`. -/
def sampleFuncSem : FuncSem := fun fid _ _ =>
  if fid = 8 then .error "division by zero"
  else if fid = 9 then .ok .noneVal
  else .ok (.obj 1 [])

/-- A callable macro bound directly to a pool name. -/
def callableMac : MacroObj := { name := "grid", funcId := 7, callable := true }

/-- A callable macro whose expansion function raises. -/
def raisingMac : MacroObj := { name := "blockdim", funcId := 8, callable := true }

/-- A non-callable macro reachable through a getattr. -/
def plainMac : MacroObj := { name := "syncthreads", funcId := 9, callable := false }

/-- A constant pool binding a callable macro, a raising macro, a module
object carrying macro attributes, and an int. -/
def samplePool : ConstPool :=
  [("g", .macroVal callableMac),
   ("bd", .macroVal raisingMac),
   ("cuda", .obj 2 [("syncthreads", .macroVal plainMac),
                    ("grid", .macroVal callableMac),
                    ("warpsize", .intVal 32)]),
   ("a", .intVal 3)]

/-! ### Claim C1 -/

/-- C1: the claim says that after `AttributesInheriter.inherit(ext_type)`
returns, `ext_type.attribute_table` is a fresh populated `AttributeTable`
and `ext_type.vtab_type` a fresh populated `VTabType`.  The code
contradicts its own docstring ("1) Build a table type 2) Copy supertype
slots into subclass table type"): `build_attribute_table` and
`build_method_table` construct and merge the new tables but have no
`return` statement, so `inherit` assigns `None` to both fields.  On an
ext_type with no bases whose tables were even already installed,
`inherit` returns with both tables set to `None`. -/
theorem inherit_installs_none_tables :
    extWithTables.attribute_table = some sampleAttrTable ∧
    extWithTables.vtab_type = some sampleVTabType ∧
    inherit extWithTables =
      .ok { extWithTables with attribute_table := none, vtab_type := none } :=
  ⟨rfl, rfl, rfl⟩

/-! ### Claim C3 -/

/-- C3 counterexample: with two validators that both reject the built
type, `validate` surfaces only the first failure — the failures are not
collected into a single structured diagnostic, and the second validator
never runs (the first raise propagates out of the loop). -/
theorem validate_surfaces_only_first_failure :
    collisionValidator extWithTables = .error "attribute x collides with method x" ∧
    abstractValidator extWithTables = .error "abstract method m has no override" ∧
    validate [collisionValidator, abstractValidator] extWithTables =
      .error "attribute x collides with method x" :=
  ⟨rfl, rfl, rfl⟩

/-- C3 (amended): `validate` invokes the registered extension-type
validators in order; the first validator failure propagates immediately
and alone — no later validator in the set runs and no other failure is
collected into the surfaced diagnostic. -/
theorem validate_first_failure_aborts (v : Validator) (vs : List Validator)
    (et : ExtType) (e : String) (h : v et = .error e) :
    validate (v :: vs) et = .error e := by
  simp [validate, h]

/-- Witness for `validate_first_failure_aborts` at a concrete failing
validator. -/
theorem validate_first_failure_aborts_witness :
    validate [collisionValidator, abstractValidator] extWithTables =
      .error "attribute x collides with method x" :=
  validate_first_failure_aborts collisionValidator [abstractValidator]
    extWithTables "attribute x collides with method x" rfl

/-! ### Claim C2 -/

theorem inherit_attributes_eq (d b : ExtType) (td tb : AttributeTable)
    (hd : d.attribute_table = some td) (hb : b.attribute_table = some tb) :
    inherit_attributes d b =
      .ok { d with attribute_table := some { td with
              attributedict := dupdate td.attributedict tb.attributedict } } := by
  unfold inherit_attributes
  rw [hd, hb]

theorem inherit_methods_eq (d b : ExtType) (vd vb : VTabType)
    (hd : d.vtab_type = some vd) (hb : b.vtab_type = some vb) :
    inherit_methods d b =
      .ok { d with vtab_type := some { vd with
              methoddict := dupdate vd.methoddict vb.methoddict } } := by
  unfold inherit_methods
  rw [hd, hb]

/-- C2: when the parents' dictionaries are merged into the derived
tables in base order (`inherit_attributes` / `inherit_methods` once per
base, as `build_attribute_table` / `build_method_table` iterate the
bases), `dict.update` makes the later base `B` overwrite the earlier
base `A` for any attribute or method name both declare, and the class's
own declarations, merged last, overwrite all inherited entries of the
same name. -/
theorem last_base_wins_merge
    (derived baseA baseB : ExtType) (td ta tb : AttributeTable)
    (vd va vb : VTabType) (aname mname : String) (tyA tyB : Ty)
    (sigA sigB : ExtMethodType)
    (hd : derived.attribute_table = some td)
    (ha : baseA.attribute_table = some ta)
    (hb : baseB.attribute_table = some tb)
    (hvd : derived.vtab_type = some vd)
    (hva : baseA.vtab_type = some va)
    (hvb : baseB.vtab_type = some vb)
    (hga : dget ta.attributedict aname = some tyA)
    (hgb : dget tb.attributedict aname = some tyB)
    (hma : dget va.methoddict mname = some sigA)
    (hmb : dget vb.methoddict mname = some sigB)
    (hndb : keysNodup tb.attributedict)
    (hndvb : keysNodup vb.methoddict) :
    ∃ d1 d2 d3 d4,
      inherit_attributes derived baseA = .ok d1 ∧
      inherit_attributes d1 baseB = .ok d2 ∧
      inherit_methods d2 baseA = .ok d3 ∧
      inherit_methods d3 baseB = .ok d4 ∧
      (∀ t2, d4.attribute_table = some t2 →
        dget t2.attributedict aname = some tyB ∧
        ∀ own tyOwn, keysNodup own → dget own aname = some tyOwn →
          dget (merge_own_attributes t2.attributedict own) aname = some tyOwn) ∧
      (∀ v2, d4.vtab_type = some v2 →
        dget v2.methoddict mname = some sigB ∧
        ∀ own sigOwn, keysNodup own → dget own mname = some sigOwn →
          dget (merge_own_methods v2.methoddict own) mname = some sigOwn) := by
  have e1 : inherit_attributes derived baseA =
      .ok { derived with attribute_table := some { td with attributedict := dupdate td.attributedict ta.attributedict } } :=
    inherit_attributes_eq derived baseA td ta hd ha
  have e2 : inherit_attributes
      { derived with attribute_table := some { td with attributedict := dupdate td.attributedict ta.attributedict } } baseB =
      .ok { derived with attribute_table := some { td with attributedict := dupdate (dupdate td.attributedict ta.attributedict) tb.attributedict } } :=
    inherit_attributes_eq _ baseB _ tb rfl hb
  have e3 : inherit_methods
      { derived with attribute_table := some { td with attributedict := dupdate (dupdate td.attributedict ta.attributedict) tb.attributedict } } baseA =
      .ok { derived with
              attribute_table := some { td with attributedict := dupdate (dupdate td.attributedict ta.attributedict) tb.attributedict },
              vtab_type := some { vd with methoddict := dupdate vd.methoddict va.methoddict } } :=
    inherit_methods_eq _ baseA _ va hvd hva
  have e4 : inherit_methods
      { derived with
          attribute_table := some { td with attributedict := dupdate (dupdate td.attributedict ta.attributedict) tb.attributedict },
          vtab_type := some { vd with methoddict := dupdate vd.methoddict va.methoddict } } baseB =
      .ok { derived with
              attribute_table := some { td with attributedict := dupdate (dupdate td.attributedict ta.attributedict) tb.attributedict },
              vtab_type := some { vd with methoddict := dupdate (dupdate vd.methoddict va.methoddict) vb.methoddict } } :=
    inherit_methods_eq _ baseB _ vb rfl hvb
  refine ⟨_, _, _, _, e1, e2, e3, e4, ?_, ?_⟩
  · intro t2 ht2
    have ht2' : ({ td with attributedict := dupdate (dupdate td.attributedict ta.attributedict) tb.attributedict } : AttributeTable) = t2 :=
      Option.some.inj ht2
    subst ht2'
    constructor
    · show dget (dupdate (dupdate td.attributedict ta.attributedict) tb.attributedict) aname
        = some tyB
      rw [dget_dupdate _ _ _ hndb, hgb]
    · intro own tyOwn hown hgo
      show dget (merge_own_attributes
        (dupdate (dupdate td.attributedict ta.attributedict) tb.attributedict) own) aname
        = some tyOwn
      unfold merge_own_attributes
      rw [dget_dupdate _ _ _ hown, hgo]
  · intro v2 hv2
    have hv2' : ({ vd with methoddict := dupdate (dupdate vd.methoddict va.methoddict) vb.methoddict } : VTabType) = v2 :=
      Option.some.inj hv2
    subst hv2'
    constructor
    · show dget (dupdate (dupdate vd.methoddict va.methoddict) vb.methoddict) mname
        = some sigB
      rw [dget_dupdate _ _ _ hndvb, hmb]
    · intro own sigOwn hown hgo
      show dget (merge_own_methods
        (dupdate (dupdate vd.methoddict va.methoddict) vb.methoddict) own) mname
        = some sigOwn
      unfold merge_own_methods
      rw [dget_dupdate _ _ _ hown, hgo]

/-- Witness for `last_base_wins_merge`: bases `[A, B]` both declare
attribute `x` and method `m`; the merged result maps both to `B`'s
entry, and an own declaration overrides it. -/
theorem last_base_wins_merge_witness :
    ∃ d1 d2 d3 d4,
      inherit_attributes extDerived extBaseA = .ok d1 ∧
      inherit_attributes d1 extBaseB = .ok d2 ∧
      inherit_methods d2 extBaseA = .ok d3 ∧
      inherit_methods d3 extBaseB = .ok d4 ∧
      (∀ t2, d4.attribute_table = some t2 →
        dget t2.attributedict "x" = some "float64" ∧
        ∀ own tyOwn, keysNodup own → dget own "x" = some tyOwn →
          dget (merge_own_attributes t2.attributedict own) "x" = some tyOwn) ∧
      (∀ v2, d4.vtab_type = some v2 →
        dget v2.methoddict "m" = some { return_type := "float64", args := [] } ∧
        ∀ own sigOwn, keysNodup own → dget own "m" = some sigOwn →
          dget (merge_own_methods v2.methoddict own) "m" = some sigOwn) :=
  last_base_wins_merge extDerived extBaseA extBaseB
    { parents := [], attributedict := [] }
    { parents := [], attributedict := [("x", "int32")] }
    { parents := [], attributedict := [("x", "float64")] }
    { parents := [], methoddict := [] }
    { parents := [], methoddict := [("m", { return_type := "int32", args := [] })] }
    { parents := [], methoddict := [("m", { return_type := "float64", args := [] })] }
    "x" "m" "int32" "float64"
    { return_type := "int32", args := [] } { return_type := "float64", args := [] }
    rfl rfl rfl rfl rfl rfl rfl rfl rfl rfl (by decide) (by decide)

/-! ### Claim C4 -/

/-- C4: the claim says `__init__` inference (when present) completes and
`build_attributes` runs before any other method's inference begins.  On
any class whose working class dict contains `__init__`, stage (d) of
`infer` raises `TypeError` — `type_infer_init_method` passes an extra
positional argument to `type_infer_method` — so `__init__`'s inference
never completes: `infer` aborts right after signature processing, before
`build_attributes` and before any method inference (the trace contains
no `inferMethod` and no `buildAttributes` event). -/
theorem infer_aborts_when_init_present :
    (infer idDeps stWithInit).1 = .error .typeError ∧
    (infer idDeps stWithInit).2 =
      [.inheritAttrs, .processClassAttrTypes, .processSignatures] :=
  ⟨rfl, rfl⟩

/-! ### Claim C5 -/

/-- C5: the claim says that with `__init__` present the init-inference
stage type-infers it and stores its FuncEnv, and with `__init__` absent
it returns leaving the state unchanged.  The absent half holds, but with
`__init__` present the source calls
`self.type_infer_method(initfunc, '__init__')` — two positional
arguments for the one-parameter `type_infer_method` — so Python raises
`TypeError` and no FuncEnv is ever stored. -/
theorem type_infer_init_method_raises_or_skips :
    type_infer_init_method stWithInit = (.error .typeError, []) ∧
    type_infer_init_method stNoInit = (.ok stNoInit, []) :=
  ⟨rfl, rfl⟩

/-! ### Claim C6 -/

theorem type_infer_methods_loop_trace (deps : CompilerDeps) (st : CompilerState)
    (ms : List Method) :
    (type_infer_methods_loop deps st ms).2 =
      (ms.filter (fun m => !(m.name == "__new__" || m.name == "__init__"))).map
        (fun m => Event.inferMethod m.name) := by
  induction ms generalizing st with
  | nil => rfl
  | cons m rest ih =>
    rw [List.filter_cons]
    by_cases hm : m.name = "__new__" ∨ m.name = "__init__"
    · have hb : (m.name == "__new__" || m.name == "__init__") = true := by
        rcases hm with h | h <;> simp [h]
      rw [hb]
      simp [type_infer_methods_loop, hm, ih]
    · have hb : (m.name == "__new__" || m.name == "__init__") = false := by
        push_neg at hm
        simp [hm.1, hm.2]
      rw [hb]
      simp [type_infer_methods_loop, hm, type_infer_method, ih]

/-- C6: `type_infer_methods` runs the inference engine on exactly the
processed methods whose names are neither `__new__` nor `__init__`: its
trace is the filtered method list in order, every such method is
inferred, and no `__new__` or `__init__` inference happens in the
pass. -/
theorem type_infer_methods_selection (deps : CompilerDeps) (st : CompilerState)
    (ms : List Method) (h : st.methods = some ms) :
    (type_infer_methods deps st).2 =
      (ms.filter (fun m => !(m.name == "__new__" || m.name == "__init__"))).map
        (fun m => Event.inferMethod m.name) ∧
    (∀ m ∈ ms, m.name ≠ "__new__" → m.name ≠ "__init__" →
      Event.inferMethod m.name ∈ (type_infer_methods deps st).2) ∧
    (∀ n, Event.inferMethod n ∈ (type_infer_methods deps st).2 →
      n ≠ "__new__" ∧ n ≠ "__init__" ∧ ∃ m ∈ ms, m.name = n) := by
  have htr : (type_infer_methods deps st).2 =
      (ms.filter (fun m => !(m.name == "__new__" || m.name == "__init__"))).map
        (fun m => Event.inferMethod m.name) := by
    unfold type_infer_methods
    rw [h]
    exact type_infer_methods_loop_trace deps st ms
  refine ⟨htr, ?_, ?_⟩
  · intro m hmem h1 h2
    rw [htr]
    refine List.mem_map.mpr ⟨m, List.mem_filter.mpr ⟨hmem, ?_⟩, rfl⟩
    simp [h1, h2]
  · intro n hn
    rw [htr] at hn
    obtain ⟨m, hmf, hme⟩ := List.mem_map.mp hn
    obtain ⟨hmem, hcond⟩ := List.mem_filter.mp hmf
    have hname : m.name = n := by
      simpa using hme
    simp only [Bool.not_eq_eq_eq_not, Bool.not_true, Bool.or_eq_false_iff, beq_eq_false_iff_ne,
      ne_eq] at hcond
    exact ⟨hname ▸ hcond.1, hname ▸ hcond.2, m, hmem, hname⟩

/-- Witness for `type_infer_methods_selection` on a state holding
`__init__`, `__new__` and `norm`: only `norm` is inferred. -/
theorem type_infer_methods_selection_witness :
    (type_infer_methods idDeps stThreeMethods).2 =
      ([initMethod, newMethod, normMethod].filter
        (fun m => !(m.name == "__new__" || m.name == "__init__"))).map
        (fun m => Event.inferMethod m.name) ∧
    (∀ m ∈ [initMethod, newMethod, normMethod],
      m.name ≠ "__new__" → m.name ≠ "__init__" →
      Event.inferMethod m.name ∈ (type_infer_methods idDeps stThreeMethods).2) ∧
    (∀ n, Event.inferMethod n ∈ (type_infer_methods idDeps stThreeMethods).2 →
      n ≠ "__new__" ∧ n ≠ "__init__" ∧
      ∃ m ∈ [initMethod, newMethod, normMethod], m.name = n) :=
  type_infer_methods_selection idDeps stThreeMethods
    [initMethod, newMethod, normMethod] rfl

/-! ### Claim C7 -/

theorem dget_append {κ α : Type} [DecidableEq κ] (d1 d2 : List (κ × α)) (k : κ) :
    dget (d1 ++ d2) k =
      match dget d1 k with
      | some v => some v
      | none => dget d2 k := by
  induction d1 with
  | nil => simp [dget]
  | cons kv rest ih =>
    obtain ⟨k0, v0⟩ := kv
    by_cases h : k0 = k <;> simp [dget, h, ih]

theorem dinsert_eq_append {κ α : Type} [DecidableEq κ] (d : List (κ × α)) (k : κ) (v : α)
    (h : dget d k = none) : dinsert d k v = d ++ [(k, v)] := by
  induction d with
  | nil => rfl
  | cons kv rest ih =>
    obtain ⟨k0, v0⟩ := kv
    by_cases h0 : k0 = k
    · simp [dget, h0] at h
    · simp only [dget, if_neg h0] at h
      simp [dinsert, h0, ih h]

theorem register_methods_func_envs (st : CompilerState)
    (l : List (Method × ExtMethodType)) :
    (register_methods st l).func_envs = st.func_envs := by
  induction l generalizing st with
  | nil => rfl
  | cons p rest ih =>
    obtain ⟨m, mt⟩ := p
    exact ih _

theorem type_infer_methods_loop_func_envs (deps : CompilerDeps) (st : CompilerState)
    (ms : List Method)
    (habs : ∀ m ∈ ms, dget st.func_envs m = none) (hnd : ms.Nodup) :
    (type_infer_methods_loop deps st ms).1.func_envs =
      st.func_envs ++
        (ms.filter (fun m => !(m.name == "__new__" || m.name == "__init__"))).map
          (fun m => (m, deps.compile2 m)) := by
  induction ms generalizing st with
  | nil => simp [type_infer_methods_loop]
  | cons m rest ih =>
    rw [List.filter_cons]
    by_cases hm : m.name = "__new__" ∨ m.name = "__init__"
    · have hb : (m.name == "__new__" || m.name == "__init__") = true := by
        rcases hm with h | h <;> simp [h]
      rw [hb]
      have hrec := ih st (fun m' hm' => habs m' (List.mem_cons_of_mem _ hm')) hnd.of_cons
      simp only [type_infer_methods_loop, if_pos hm]
      simpa using hrec
    · have hb : (m.name == "__new__" || m.name == "__init__") = false := by
        push_neg at hm
        simp [hm.1, hm.2]
      rw [hb]
      have hmem : dget st.func_envs m = none := habs m (List.mem_cons_self _ _)
      have hins : dinsert st.func_envs m (deps.compile2 m) =
          st.func_envs ++ [(m, deps.compile2 m)] := dinsert_eq_append _ _ _ hmem
      have hnotrest : m ∉ rest := (List.nodup_cons.mp hnd).1
      have hfe1 : ((type_infer_method deps st m).1).func_envs =
          st.func_envs ++ [(m, deps.compile2 m)] := hins
      have habs2 : ∀ m' ∈ rest, dget ((type_infer_method deps st m).1).func_envs m' = none := by
        intro m' hm'
        rw [hfe1, dget_append, habs m' (List.mem_cons_of_mem _ hm')]
        have hne : ¬ m = m' := fun he => hnotrest (he ▸ hm')
        simp [dget, hne]
      have hrec := ih ((type_infer_method deps st m).1) habs2 hnd.of_cons
      have hstep : (type_infer_methods_loop deps st (m :: rest)).1 =
          (type_infer_methods_loop deps ((type_infer_method deps st m).1) rest).1 := by
        simp only [type_infer_methods_loop, if_neg hm]
      rw [hstep, hrec, hfe1, List.append_assoc]
      simp

theorem infer_from_init_error (deps : CompilerDeps) (st2 : CompilerState)
    (v : ClassMember) (hi : dget st2.class_dict "__init__" = some v) :
    infer_from_init deps st2 = (.error .typeError, []) := by
  unfold infer_from_init type_infer_init_method
  rw [hi]

theorem infer_from_init_ok (deps : CompilerDeps) (st2 : CompilerState) (ms : List Method)
    (hm : st2.methods = some ms) (hi : dget st2.class_dict "__init__" = none) :
    infer_from_init deps st2 =
      (.ok { (type_infer_methods_loop deps
                { st2 with ext_type := deps.build_attributes st2.ext_type } ms).1 with
               ext_type := deps.build_vtab_type
                 (type_infer_methods_loop deps
                   { st2 with ext_type := deps.build_attributes st2.ext_type } ms).1.ext_type,
               methods := none, method_types := none },
       [Event.buildAttributes] ++
         (type_infer_methods_loop deps
           { st2 with ext_type := deps.build_attributes st2.ext_type } ms).2 ++
         [Event.buildVTabType]) := by
  unfold infer_from_init type_infer_init_method type_infer_methods
  simp only [hi, hm]
  rfl

theorem compile_decomp (deps : CompilerDeps) (s : CompilerState) (fms : List Method)
    (hfe : s.func_envs = fms.map (fun m => (m, deps.compile2 m))) :
    (compile deps s).2 =
      fms.map (fun m => Event.nativeCompileMethod m.name) ++
        [Event.buildVtab, Event.createExtensionType] ∧
    (∀ n, Event.inferMethod n ∉ (compile deps s).2) ∧
    (compile deps s).1 =
      { name := s.py_class_name
        class_dict := dinsert s.class_dict "__numba_py_class" (.pyObj 0)
        ext_type := s.ext_type
        vtab := deps.build_vtab s.ext_type
          (fms.map (fun m => (deps.nativeCompile (deps.compile2 m)).1))
        vtab_type := s.ext_type.vtab_type
        lmethods := fms.map (fun m => (deps.nativeCompile (deps.compile2 m)).2)
        method_pointers := fms.map (fun m => (deps.nativeCompile (deps.compile2 m)).1) } := by
  have h2 : (compile deps s).2 =
      fms.map (fun m => Event.nativeCompileMethod m.name) ++
        [Event.buildVtab, Event.createExtensionType] := by
    unfold compile compile_methods build_extension_type
    simp [hfe, List.map_map, Function.comp]
  refine ⟨h2, ?_, ?_⟩
  · intro n hn
    rw [h2] at hn
    simp [List.mem_append, List.mem_map] at hn
  · unfold compile compile_methods build_extension_type
    simp [hfe, List.map_map, Function.comp_def]

/-- C7: once the inference stage has completed, `compile()` runs the
native code generator once per inferred method on the FuncEnv produced
by the inference engine during `infer` (`deps.compile2`), never invokes
the inference engine again, builds the populated dispatch table from the
resulting method pointers via the vtab builder's `build_vtab`, and hands
the class dict, ext_type, vtab, vtab type, llvm methods and method
pointers to the native type factory. -/
theorem compile_uses_inference_stage_envs (deps : CompilerDeps) (st st1 : CompilerState)
    (hfe : st.func_envs = [])
    (hnd : (deps.get_method_signatures st.class_dict).1.Nodup)
    (hinf : (infer deps st).1 = .ok st1) :
    st1.func_envs =
      ((deps.get_method_signatures st.class_dict).1.filter
        (fun m => !(m.name == "__new__" || m.name == "__init__"))).map
        (fun m => (m, deps.compile2 m)) ∧
    (compile deps st1).2 =
      ((deps.get_method_signatures st.class_dict).1.filter
        (fun m => !(m.name == "__new__" || m.name == "__init__"))).map
        (fun m => Event.nativeCompileMethod m.name) ++
      [Event.buildVtab, Event.createExtensionType] ∧
    (∀ n, Event.inferMethod n ∉ (compile deps st1).2) ∧
    (compile deps st1).1 =
      { name := st1.py_class_name
        class_dict := dinsert st1.class_dict "__numba_py_class" (.pyObj 0)
        ext_type := st1.ext_type
        vtab := deps.build_vtab st1.ext_type
          (((deps.get_method_signatures st.class_dict).1.filter
            (fun m => !(m.name == "__new__" || m.name == "__init__"))).map
            (fun m => (deps.nativeCompile (deps.compile2 m)).1))
        vtab_type := st1.ext_type.vtab_type
        lmethods := ((deps.get_method_signatures st.class_dict).1.filter
            (fun m => !(m.name == "__new__" || m.name == "__init__"))).map
            (fun m => (deps.nativeCompile (deps.compile2 m)).2)
        method_pointers := ((deps.get_method_signatures st.class_dict).1.filter
            (fun m => !(m.name == "__new__" || m.name == "__init__"))).map
            (fun m => (deps.nativeCompile (deps.compile2 m)).1) } := by
  have hB : (infer_from_init deps
      ((process_method_signatures deps ((infer_attributes deps st).1)).1)).1 = .ok st1 := hinf
  have hmB : ((process_method_signatures deps ((infer_attributes deps st).1)).1).methods =
      some (deps.get_method_signatures st.class_dict).1 := rfl
  have hfeB : ((process_method_signatures deps ((infer_attributes deps st).1)).1).func_envs
      = [] := by
    have h1 : ((process_method_signatures deps ((infer_attributes deps st).1)).1).func_envs =
        (register_methods ((infer_attributes deps st).1)
          (((deps.get_method_signatures st.class_dict).1).zip
            ((deps.get_method_signatures st.class_dict).2))).func_envs := rfl
    rw [h1, register_methods_func_envs]
    exact hfe
  cases hi : dget ((process_method_signatures deps
      ((infer_attributes deps st).1)).1).class_dict "__init__" with
  | some v =>
    rw [infer_from_init_error deps _ v hi] at hB
    exact absurd hB (by simp)
  | none =>
    rw [infer_from_init_ok deps _ (deps.get_method_signatures st.class_dict).1 hmB hi] at hB
    simp only at hB
    have habs : ∀ m ∈ (deps.get_method_signatures st.class_dict).1,
        dget (({ (process_method_signatures deps ((infer_attributes deps st).1)).1 with
          ext_type := deps.build_attributes
            ((process_method_signatures deps ((infer_attributes deps st).1)).1).ext_type } :
          CompilerState)).func_envs m = none := by
      intro m _
      show dget ((process_method_signatures deps ((infer_attributes deps st).1)).1).func_envs
        m = none
      rw [hfeB]
      rfl
    have hloop := type_infer_methods_loop_func_envs deps
      { (process_method_signatures deps ((infer_attributes deps st).1)).1 with
          ext_type := deps.build_attributes
            ((process_method_signatures deps ((infer_attributes deps st).1)).1).ext_type }
      (deps.get_method_signatures st.class_dict).1 habs hnd
    have hst1 : st1.func_envs =
        ((deps.get_method_signatures st.class_dict).1.filter
          (fun m => !(m.name == "__new__" || m.name == "__init__"))).map
          (fun m => (m, deps.compile2 m)) := by
      have he := Except.ok.inj hB
      rw [← he]
      show (type_infer_methods_loop deps
        { (process_method_signatures deps ((infer_attributes deps st).1)).1 with
            ext_type := deps.build_attributes
              ((process_method_signatures deps ((infer_attributes deps st).1)).1).ext_type }
        (deps.get_method_signatures st.class_dict).1).1.func_envs = _
      rw [hloop]
      rw [(hfeB : (({ (process_method_signatures deps ((infer_attributes deps st).1)).1 with
            ext_type := deps.build_attributes
              ((process_method_signatures deps ((infer_attributes deps st).1)).1).ext_type } :
            CompilerState)).func_envs = [])]
      simp
    obtain ⟨h2, h3, h4⟩ := compile_decomp deps st1 _ hst1
    exact ⟨hst1, h2, h3, h4⟩

/-- Witness for `compile_uses_inference_stage_envs` on `stNoInit`: the
inference stage completes (producing `inferredNoInit`), and `compile`
native-compiles exactly `norm`'s FuncEnv with no re-inference. -/
theorem compile_uses_inference_stage_envs_witness :
    inferredNoInit.func_envs =
      ((idDeps.get_method_signatures stNoInit.class_dict).1.filter
        (fun m => !(m.name == "__new__" || m.name == "__init__"))).map
        (fun m => (m, idDeps.compile2 m)) ∧
    (compile idDeps inferredNoInit).2 =
      ((idDeps.get_method_signatures stNoInit.class_dict).1.filter
        (fun m => !(m.name == "__new__" || m.name == "__init__"))).map
        (fun m => Event.nativeCompileMethod m.name) ++
      [Event.buildVtab, Event.createExtensionType] ∧
    (∀ n, Event.inferMethod n ∉ (compile idDeps inferredNoInit).2) ∧
    (compile idDeps inferredNoInit).1 =
      { name := inferredNoInit.py_class_name
        class_dict := dinsert inferredNoInit.class_dict "__numba_py_class" (.pyObj 0)
        ext_type := inferredNoInit.ext_type
        vtab := idDeps.build_vtab inferredNoInit.ext_type
          (((idDeps.get_method_signatures stNoInit.class_dict).1.filter
            (fun m => !(m.name == "__new__" || m.name == "__init__"))).map
            (fun m => (idDeps.nativeCompile (idDeps.compile2 m)).1))
        vtab_type := inferredNoInit.ext_type.vtab_type
        lmethods := ((idDeps.get_method_signatures stNoInit.class_dict).1.filter
            (fun m => !(m.name == "__new__" || m.name == "__init__"))).map
            (fun m => (idDeps.nativeCompile (idDeps.compile2 m)).2)
        method_pointers := ((idDeps.get_method_signatures stNoInit.class_dict).1.filter
            (fun m => !(m.name == "__new__" || m.name == "__init__"))).map
            (fun m => (idDeps.nativeCompile (idDeps.compile2 m)).1) } :=
  compile_uses_inference_stage_envs idDeps stNoInit inferredNoInit rfl (by decide) rfl

/-! ### Claim C8 -/

/-- C8: for a call instruction whose callee resolves to a callable
`Macro` (with resolvable argument and keyword values): a raised
expansion-function exception becomes a `MacroError` whose message is
"Macro expansion failed at " followed by the instruction's location, a
colon-newline, and the original message — and the whole pass raises it;
a falsy expansion result leaves the instruction unchanged; a truthy
result replaces the instruction's value by a call to the result with the
original arguments. -/
theorem expand_call_macro_behaviour (funcSem : FuncSem) (constants : ConstPool)
    (target f : VarRef) (args : List VarRef) (kws : List (String × VarRef))
    (loc rloc : Loc) (m : MacroObj) (argvals : List PyVal)
    (kwvals : List (String × PyVal))
    (hm : dget constants f.name = some (.macroVal m))
    (hc : m.callable = true)
    (hargs : resolveVars constants args = .ok argvals)
    (hkws : resolveKws constants kws = .ok kwvals) :
    expandMacroInst funcSem constants
        (.assign target (.expr (.call (.var f) args kws loc)) rloc) =
      (match funcSem m.funcId argvals kwvals with
       | .error msg =>
           .error (.macroFailure ("Macro expansion failed at " ++ loc ++ ":\n" ++ msg))
       | .ok result =>
           if truthy result then
             .ok (.assign target (.expr (.call (.value result loc) args kws loc)) rloc)
           else .ok (.assign target (.expr (.call (.var f) args kws loc)) rloc)) ∧
    (∀ rest msg, funcSem m.funcId argvals kwvals = .error msg →
      expand_macros_in_block funcSem constants
          ((.assign target (.expr (.call (.var f) args kws loc)) rloc) :: rest) =
        .error (.macroFailure ("Macro expansion failed at " ++ loc ++ ":\n" ++ msg))) := by
  have h1 : expandMacroInst funcSem constants
      (.assign target (.expr (.call (.var f) args kws loc)) rloc) =
      (match funcSem m.funcId argvals kwvals with
       | .error msg =>
           .error (.macroFailure ("Macro expansion failed at " ++ loc ++ ":\n" ++ msg))
       | .ok result =>
           if truthy result then
             .ok (.assign target (.expr (.call (.value result loc) args kws loc)) rloc)
           else .ok (.assign target (.expr (.call (.var f) args kws loc)) rloc)) := by
    simp only [expandMacroInst, calleeName, hm, hc, hargs, hkws, if_true]
  refine ⟨h1, ?_⟩
  intro rest msg hrun
  have h2 : expandMacroInst funcSem constants
      (.assign target (.expr (.call (.var f) args kws loc)) rloc) =
      .error (.macroFailure ("Macro expansion failed at " ++ loc ++ ":\n" ++ msg)) := by
    rw [h1, hrun]
  unfold expand_macros_in_block
  rw [h2]

/-- Witness for `expand_call_macro_behaviour`: a call to the macro bound
to `g` with argument `a`, under the sample pool and semantics. -/
theorem expand_call_macro_behaviour_witness :
    expandMacroInst sampleFuncSem samplePool
        (.assign ⟨"t"⟩ (.expr (.call (.var ⟨"g"⟩) [⟨"a"⟩] [] "numba.py:10")) "numba.py:10") =
      (match sampleFuncSem callableMac.funcId [.intVal 3] [] with
       | .error msg =>
           .error (.macroFailure ("Macro expansion failed at " ++ "numba.py:10" ++ ":\n" ++ msg))
       | .ok result =>
           if truthy result then
             .ok (.assign ⟨"t"⟩
               (.expr (.call (.value result "numba.py:10") [⟨"a"⟩] [] "numba.py:10")) "numba.py:10")
           else .ok (.assign ⟨"t"⟩
             (.expr (.call (.var ⟨"g"⟩) [⟨"a"⟩] [] "numba.py:10")) "numba.py:10")) ∧
    (∀ rest msg, sampleFuncSem callableMac.funcId [.intVal 3] [] = .error msg →
      expand_macros_in_block sampleFuncSem samplePool
          ((.assign ⟨"t"⟩ (.expr (.call (.var ⟨"g"⟩) [⟨"a"⟩] [] "numba.py:10")) "numba.py:10") :: rest) =
        .error (.macroFailure ("Macro expansion failed at " ++ "numba.py:10" ++ ":\n" ++ msg))) :=
  expand_call_macro_behaviour sampleFuncSem samplePool ⟨"t"⟩ ⟨"g"⟩ [⟨"a"⟩] []
    "numba.py:10" "numba.py:10" callableMac [.intVal 3] [] rfl rfl rfl rfl

/-! ### Claim C9 -/

/-- C9: for an assignment whose right-hand side is a getattr on a
pool-bound name where the looked-up attribute value exists: a
non-callable `Macro` value rewrites the instruction into a call of a
zero-argument `Intrinsic` wrapping the macro's function; a callable
`Macro` or any non-`Macro` value leaves the instruction unchanged. -/
theorem expand_getattr_macro_behaviour (funcSem : FuncSem) (constants : ConstPool)
    (target base : VarRef) (attr : String) (loc rloc : Loc) (baseval value : PyVal)
    (hb : dget constants base.name = some baseval)
    (hv : pyGetattr baseval attr = .ok value) :
    (∀ m, value = .macroVal m → m.callable = false →
      expandMacroInst funcSem constants
          (.assign target (.expr (.getattr base attr loc)) rloc) =
        .ok (.assign target (.expr (.call (.intrinsic m.name m.funcId) [] [] loc)) rloc)) ∧
    (∀ m, value = .macroVal m → m.callable = true →
      expandMacroInst funcSem constants
          (.assign target (.expr (.getattr base attr loc)) rloc) =
        .ok (.assign target (.expr (.getattr base attr loc)) rloc)) ∧
    ((∀ m, value ≠ .macroVal m) →
      expandMacroInst funcSem constants
          (.assign target (.expr (.getattr base attr loc)) rloc) =
        .ok (.assign target (.expr (.getattr base attr loc)) rloc)) := by
  refine ⟨?_, ?_, ?_⟩
  · intro m hval hcall
    subst hval
    simp only [expandMacroInst, hb, hv, hcall]
    rfl
  · intro m hval hcall
    subst hval
    simp only [expandMacroInst, hb, hv, hcall]
    rfl
  · intro hnot
    cases hvv : value with
    | macroVal m => exact absurd hvv (hnot m)
    | obj c attrs =>
      subst hvv
      simp only [expandMacroInst, hb, hv]
    | intVal n =>
      subst hvv
      simp only [expandMacroInst, hb, hv]
    | strVal s =>
      subst hvv
      simp only [expandMacroInst, hb, hv]
    | boolVal b =>
      subst hvv
      simp only [expandMacroInst, hb, hv]
    | noneVal =>
      subst hvv
      simp only [expandMacroInst, hb, hv]

/-- Witness for `expand_getattr_macro_behaviour`: looking up
`cuda.syncthreads` (a non-callable macro) in the sample pool. -/
theorem expand_getattr_macro_behaviour_witness :
    (∀ m, PyVal.macroVal plainMac = .macroVal m → m.callable = false →
      expandMacroInst sampleFuncSem samplePool
          (.assign ⟨"s"⟩ (.expr (.getattr ⟨"cuda"⟩ "syncthreads" "numba.py:11")) "numba.py:11") =
        .ok (.assign ⟨"s"⟩
          (.expr (.call (.intrinsic m.name m.funcId) [] [] "numba.py:11")) "numba.py:11")) ∧
    (∀ m, PyVal.macroVal plainMac = .macroVal m → m.callable = true →
      expandMacroInst sampleFuncSem samplePool
          (.assign ⟨"s"⟩ (.expr (.getattr ⟨"cuda"⟩ "syncthreads" "numba.py:11")) "numba.py:11") =
        .ok (.assign ⟨"s"⟩ (.expr (.getattr ⟨"cuda"⟩ "syncthreads" "numba.py:11")) "numba.py:11")) ∧
    ((∀ m, PyVal.macroVal plainMac ≠ .macroVal m) →
      expandMacroInst sampleFuncSem samplePool
          (.assign ⟨"s"⟩ (.expr (.getattr ⟨"cuda"⟩ "syncthreads" "numba.py:11")) "numba.py:11") =
        .ok (.assign ⟨"s"⟩ (.expr (.getattr ⟨"cuda"⟩ "syncthreads" "numba.py:11")) "numba.py:11")) :=
  expand_getattr_macro_behaviour sampleFuncSem samplePool ⟨"s"⟩ ⟨"cuda"⟩ "syncthreads"
    "numba.py:11" "numba.py:11" (.obj 2 [("syncthreads", .macroVal plainMac),
      ("grid", .macroVal callableMac), ("warpsize", .intVal 32)]) (.macroVal plainMac)
    rfl rfl

/-! ### Claim C10 -/

theorem dget_dinsert_isSome {κ α : Type} [DecidableEq κ] (d : List (κ × α)) (t k : κ)
    (v : α) (h : (dget d k).isSome = true) :
    (dget (dinsert d t v) k).isSome = true := by
  rw [dget_dinsert]
  by_cases ht : t = k
  · simp [ht]
  · simp [ht, h]

theorem foldConstInst_mono (c : ConstPool) (inst : Stmt) (c' : ConstPool)
    (h : foldConstInst c inst = .ok c') :
    ∀ k, (dget c k).isSome = true → (dget c' k).isSome = true := by
  intro k hk
  cases inst with
  | other =>
    have he : c = c' := by simpa [foldConstInst] using h
    rw [← he]
    exact hk
  | assign target rhs loc =>
    cases rhs with
    | globalVal g v =>
      have he : dinsert c target.name v = c' := by simpa [foldConstInst] using h
      rw [← he]
      exact dget_dinsert_isSome _ _ _ _ hk
    | constVal v =>
      have he : dinsert c target.name v = c' := by simpa [foldConstInst] using h
      rw [← he]
      exact dget_dinsert_isSome _ _ _ _ hk
    | freeVar i v =>
      have he : dinsert c target.name v = c' := by simpa [foldConstInst] using h
      rw [← he]
      exact dget_dinsert_isSome _ _ _ _ hk
    | varRHS v =>
      cases hlook : dget c v.name with
      | some value =>
        have he : dinsert c target.name value = c' := by
          simpa [foldConstInst, hlook] using h
        rw [← he]
        exact dget_dinsert_isSome _ _ _ _ hk
      | none =>
        have he : c = c' := by simpa [foldConstInst, hlook] using h
        rw [← he]
        exact hk
    | expr e =>
      cases e with
      | call cf ca ckw cl =>
        have he : c = c' := by simpa [foldConstInst] using h
        rw [← he]
        exact hk
      | otherExpr op l =>
        have he : c = c' := by simpa [foldConstInst] using h
        rw [← he]
        exact hk
      | getattr base attr eloc =>
        cases hlook : dget c base.name with
        | some bv =>
          cases hg : pyGetattr bv attr with
          | error e2 => simp [foldConstInst, hlook, hg] at h
          | ok v2 =>
            have he : dinsert c target.name v2 = c' := by
              simpa [foldConstInst, hlook, hg] using h
            rw [← he]
            exact dget_dinsert_isSome _ _ _ _ hk
        | none =>
          have he : c = c' := by simpa [foldConstInst, hlook] using h
          rw [← he]
          exact hk

theorem foldConstInst_new (c : ConstPool) (inst : Stmt) (c' : ConstPool)
    (h : foldConstInst c inst = .ok c') :
    ∀ k, (dget c' k).isSome = true → (dget c k).isSome = true ∨
      ∃ target rhs loc, target.name = k ∧ inst = .assign target rhs loc ∧
        bindingRHS c rhs := by
  intro k hk
  cases inst with
  | other =>
    have he : c = c' := by simpa [foldConstInst] using h
    rw [← he] at hk
    exact .inl hk
  | assign target rhs loc =>
    cases rhs with
    | globalVal g v =>
      have he : dinsert c target.name v = c' := by simpa [foldConstInst] using h
      rw [← he, dget_dinsert] at hk
      by_cases ht : target.name = k
      · exact .inr ⟨target, .globalVal g v, loc, ht, rfl, trivial⟩
      · rw [if_neg ht] at hk
        exact .inl hk
    | constVal v =>
      have he : dinsert c target.name v = c' := by simpa [foldConstInst] using h
      rw [← he, dget_dinsert] at hk
      by_cases ht : target.name = k
      · exact .inr ⟨target, .constVal v, loc, ht, rfl, trivial⟩
      · rw [if_neg ht] at hk
        exact .inl hk
    | freeVar i v =>
      have he : dinsert c target.name v = c' := by simpa [foldConstInst] using h
      rw [← he, dget_dinsert] at hk
      by_cases ht : target.name = k
      · exact .inr ⟨target, .freeVar i v, loc, ht, rfl, trivial⟩
      · rw [if_neg ht] at hk
        exact .inl hk
    | varRHS v =>
      cases hlook : dget c v.name with
      | some value =>
        have he : dinsert c target.name value = c' := by
          simpa [foldConstInst, hlook] using h
        rw [← he, dget_dinsert] at hk
        by_cases ht : target.name = k
        · refine .inr ⟨target, .varRHS v, loc, ht, rfl, ?_⟩
          show (dget c v.name).isSome = true
          rw [hlook]
          rfl
        · rw [if_neg ht] at hk
          exact .inl hk
      | none =>
        have he : c = c' := by simpa [foldConstInst, hlook] using h
        rw [← he] at hk
        exact .inl hk
    | expr e =>
      cases e with
      | call cf ca ckw cl =>
        have he : c = c' := by simpa [foldConstInst] using h
        rw [← he] at hk
        exact .inl hk
      | otherExpr op l =>
        have he : c = c' := by simpa [foldConstInst] using h
        rw [← he] at hk
        exact .inl hk
      | getattr base attr eloc =>
        cases hlook : dget c base.name with
        | some bv =>
          cases hg : pyGetattr bv attr with
          | error e2 => simp [foldConstInst, hlook, hg] at h
          | ok v2 =>
            have he : dinsert c target.name v2 = c' := by
              simpa [foldConstInst, hlook, hg] using h
            rw [← he, dget_dinsert] at hk
            by_cases ht : target.name = k
            · refine .inr ⟨target, .expr (.getattr base attr eloc), loc, ht, rfl, ?_⟩
              show (dget c base.name).isSome = true
              rw [hlook]
              rfl
            · rw [if_neg ht] at hk
              exact .inl hk
        | none =>
          have he : c = c' := by simpa [foldConstInst, hlook] using h
          rw [← he] at hk
          exact .inl hk

theorem bindingRHS_mono (c c' : ConstPool)
    (hmono : ∀ k, (dget c k).isSome = true → (dget c' k).isSome = true)
    (rhs : RHS) (h : bindingRHS c rhs) : bindingRHS c' rhs := by
  cases rhs with
  | globalVal g v => trivial
  | constVal v => trivial
  | freeVar i v => trivial
  | varRHS v => exact hmono _ h
  | expr e =>
    cases e with
    | call cf ca ckw cl => exact h.elim
    | otherExpr op l => exact h.elim
    | getattr base attr eloc => exact hmono _ h

theorem module_getattr_folding_aux (body : List Stmt) (constants : ConstPool) :
    (∀ k, (dget constants k).isSome = true →
      (dget (module_getattr_folding constants body).1 k).isSome = true) ∧
    (∀ k, (dget (module_getattr_folding constants body).1 k).isSome = true →
      (dget constants k).isSome = true ∨
      ∃ target rhs loc, target.name = k ∧ Stmt.assign target rhs loc ∈ body ∧
        bindingRHS (module_getattr_folding constants body).1 rhs) := by
  induction body generalizing constants with
  | nil => exact ⟨fun k hk => hk, fun k hk => .inl hk⟩
  | cons inst rest ih =>
    cases hstep : foldConstInst constants inst with
    | error e =>
      have hres : module_getattr_folding constants (inst :: rest) = (constants, some e) := by
        unfold module_getattr_folding
        rw [hstep]
      rw [hres]
      exact ⟨fun k hk => hk, fun k hk => .inl hk⟩
    | ok c1 =>
      have hres : module_getattr_folding constants (inst :: rest) =
          module_getattr_folding c1 rest := by
        show (match foldConstInst constants inst with
              | .error e => (constants, some e)
              | .ok c2 => module_getattr_folding c2 rest) =
          module_getattr_folding c1 rest
        rw [hstep]
      rw [hres]
      obtain ⟨ih1, ih2⟩ := ih c1
      have hmono1 := foldConstInst_mono constants inst c1 hstep
      have hmonoAll : ∀ k, (dget constants k).isSome = true →
          (dget (module_getattr_folding c1 rest).1 k).isSome = true :=
        fun k hk => ih1 k (hmono1 k hk)
      refine ⟨hmonoAll, ?_⟩
      intro k hk
      rcases ih2 k hk with h1 | ⟨target, rhs, loc, hname, hmem, hbind⟩
      · rcases foldConstInst_new constants inst c1 hstep k h1 with
          h2 | ⟨target, rhs, loc, hname, hinst, hbind⟩
        · exact .inl h2
        · refine .inr ⟨target, rhs, loc, hname, ?_, ?_⟩
          · rw [hinst]
            exact List.mem_cons_self _ _
          · exact bindingRHS_mono constants _ hmonoAll rhs hbind
      · exact .inr ⟨target, rhs, loc, hname, List.mem_cons_of_mem _ hmem, hbind⟩

theorem foldConstInst_skip (pool : ConstPool) (inst : Stmt)
    (h : ∀ target rhs loc, inst = .assign target rhs loc → ¬ bindingRHS pool rhs) :
    foldConstInst pool inst = .ok pool := by
  cases inst with
  | other => rfl
  | assign target rhs loc =>
    have hb := h target rhs loc rfl
    cases rhs with
    | globalVal g v => exact absurd trivial hb
    | constVal v => exact absurd trivial hb
    | freeVar i v => exact absurd trivial hb
    | varRHS v =>
      cases hlook : dget pool v.name with
      | some value =>
        refine absurd ?_ hb
        show (dget pool v.name).isSome = true
        rw [hlook]
        rfl
      | none => simp [foldConstInst, hlook]
    | expr e =>
      cases e with
      | call cf ca ckw cl => rfl
      | otherExpr op l => rfl
      | getattr base attr eloc =>
        cases hlook : dget pool base.name with
        | some bv =>
          refine absurd ?_ hb
          show (dget pool base.name).isSome = true
          rw [hlook]
          rfl
        | none => simp [foldConstInst, hlook]

/-- C10: `module_getattr_folding` never removes a key from the constant
pool — every key bound before the call is still bound afterward, even
when an instruction raises midway — new bindings arise only from
assignments whose right-hand side is a `Global`, a `Const`, a `FreeVar`,
a `Var` bound in the pool, or a getattr whose base name is bound in the
pool, and any instruction of no such shape leaves the pool exactly
unchanged. -/
theorem module_getattr_folding_pool_invariant (constants : ConstPool) (body : List Stmt) :
    (∀ k, (dget constants k).isSome = true →
      (dget (module_getattr_folding constants body).1 k).isSome = true) ∧
    (∀ k, (dget (module_getattr_folding constants body).1 k).isSome = true →
      (dget constants k).isSome = true ∨
      ∃ target rhs loc, target.name = k ∧ Stmt.assign target rhs loc ∈ body ∧
        bindingRHS (module_getattr_folding constants body).1 rhs) ∧
    (∀ (pool : ConstPool) (inst : Stmt),
      (∀ target rhs loc, inst = .assign target rhs loc → ¬ bindingRHS pool rhs) →
      foldConstInst pool inst = .ok pool) :=
  ⟨(module_getattr_folding_aux body constants).1,
   (module_getattr_folding_aux body constants).2,
   foldConstInst_skip⟩

end Numba
